import Mathlib

/-!
Verification development for the Smart Research Assistant's
Research Synthesis & Billing Pipeline.

The repository's checked-in sources contain the React frontend
(ResearchInterface, Dashboard, UsageStats, the ApiService client) and the
project documentation; the backend services named by the documentation
(real_billing_service.py, research_agent.py, real_pathway_service.py,
vector_store.py, web_search.py) are not part of the checked-in tree.
The backend components (Credit Ledger, Evidence Aggregator, Citation
Assembler, Live Feed Cache, Research Orchestrator) are therefore modelled
from the specification, while the frontend submit handler is embedded
directly from ResearchInterface.jsx.
-/

namespace SmartResearch

/-- Modelled from the spec: failure taxonomy of §7 (the backend error
types are absent from the checked-in sources). -/
inductive ResearchError
  | insufficientCredits
  | sourceUnavailable
  | noUsableEvidence
  | synthesisFailure
  | ledgerInconsistency
deriving DecidableEq, Repr

/-- Modelled from the spec: the reason tag of a CreditLedgerEntry (§3). -/
inductive Reason
  | reservation
  | commit
  | rollback
  | purchase
deriving DecidableEq, Repr

/-- Modelled from the spec: CreditLedgerEntry of §3 (append-only audit
trail; correlation_id links a reservation to its terminal entry).
entry_id and timestamp are omitted: position in the append-only list
plays both roles. -/
structure LedgerEntry where
  user_id : Nat
  delta : Int
  reason : Reason
  balance_after : Int
  correlation_id : Nat
deriving DecidableEq, Repr

/-- Modelled from the spec: the ledger state, an append-only trail of
entries (newest first). -/
structure Ledger where
  entries : List LedgerEntry
deriving DecidableEq, Repr

/-- Sum of the deltas of the given user's entries. -/
def sumDeltas : List LedgerEntry → Nat → Int
  | [], _ => 0
  | e :: rest, u => (if e.user_id = u then e.delta else 0) + sumDeltas rest u

/-- Modelled from the spec: UserBalance (§3) — available credits always
equal the running sum of that user's ledger deltas. -/
def availableCredits (l : Ledger) (u : Nat) : Int :=
  sumDeltas l.entries u

/-- The ledger entry appended by a successful reservation. -/
def resEntry (u cost cid : Nat) (avail : Int) : LedgerEntry :=
  { user_id := u, delta := -(cost : Int), reason := Reason.reservation,
    balance_after := avail - cost, correlation_id := cid }

/-- Modelled from the spec: reserve of §4.1 — fails with
InsufficientCredits if available_credits < amount, otherwise atomically
decrements the available balance and appends a reservation entry.  The
correlation id is supplied by the caller (the orchestrator picks a fresh
one per request). -/
def reserve (l : Ledger) (u amt cid : Nat) : Except ResearchError Ledger :=
  let avail := availableCredits l u
  if avail < (amt : Int) then Except.error ResearchError.insufficientCredits
  else Except.ok ⟨resEntry u amt cid avail :: l.entries⟩

/-- An entry is terminal when its reason is commit or rollback. -/
def isTerminal (e : LedgerEntry) : Bool :=
  e.reason == Reason.commit || e.reason == Reason.rollback

/-- Whether a terminal entry for the correlation id already exists. -/
def hasTerminal (l : Ledger) (cid : Nat) : Bool :=
  l.entries.any (fun e => e.correlation_id == cid && isTerminal e)

/-- The reservation entry recorded for a correlation id, if any. -/
def findReservation (l : Ledger) (cid : Nat) : Option LedgerEntry :=
  l.entries.find? (fun e => e.correlation_id == cid && e.reason == Reason.reservation)

/-- The terminal entry appended by a first commit of reservation r. -/
def commitEntry (l : Ledger) (r : LedgerEntry) (cid : Nat) : LedgerEntry :=
  { user_id := r.user_id, delta := 0, reason := Reason.commit,
    balance_after := availableCredits l r.user_id, correlation_id := cid }

/-- The terminal entry appended by a first rollback of reservation r. -/
def rollbackEntry (l : Ledger) (r : LedgerEntry) (cid : Nat) : LedgerEntry :=
  { user_id := r.user_id, delta := -r.delta, reason := Reason.rollback,
    balance_after := availableCredits l r.user_id - r.delta, correlation_id := cid }

/-- Modelled from the spec: commit of §4.1 — marks the reservation
final; idempotent, a second call is detected via the existing terminal
entry and is a no-op (never double-charges). -/
def commit (l : Ledger) (cid : Nat) : Ledger :=
  if hasTerminal l cid then l
  else
    match findReservation l cid with
    | none => l
    | some r => ⟨commitEntry l r cid :: l.entries⟩

/-- Modelled from the spec: rollback of §4.1 — restores the reserved
amount to the available balance and appends a rollback entry; idempotent
under the same terminal-entry rule. -/
def rollback (l : Ledger) (cid : Nat) : Ledger :=
  if hasTerminal l cid then l
  else
    match findReservation l cid with
    | none => l
    | some r => ⟨rollbackEntry l r cid :: l.entries⟩

/-- Modelled from the spec: purchase — the credit top-up reason of §3,
appending a positive delta. -/
def purchase (l : Ledger) (u amt : Nat) : Ledger :=
  ⟨{ user_id := u, delta := (amt : Int), reason := Reason.purchase,
     balance_after := availableCredits l u + amt, correlation_id := 0 } :: l.entries⟩

/-- Number of rollback entries recorded for a correlation id. -/
def rollbackEntryCount (l : Ledger) (cid : Nat) : Nat :=
  (l.entries.filter (fun e => e.correlation_id == cid && e.reason == Reason.rollback)).length

theorem sumDeltas_cons (e : LedgerEntry) (rest : List LedgerEntry) (u : Nat) :
    sumDeltas (e :: rest) u = (if e.user_id = u then e.delta else 0) + sumDeltas rest u := rfl

theorem availableCredits_cons (e : LedgerEntry) (rest : List LedgerEntry) (u : Nat) :
    availableCredits ⟨e :: rest⟩ u = (if e.user_id = u then e.delta else 0) + availableCredits ⟨rest⟩ u := rfl

theorem reserve_ok (l : Ledger) (u amt cid : Nat) (h : (amt : Int) ≤ availableCredits l u) :
    reserve l u amt cid = Except.ok ⟨resEntry u amt cid (availableCredits l u) :: l.entries⟩ := by
  simp [reserve, not_lt.mpr h]

theorem reserve_fail (l : Ledger) (u amt cid : Nat) (h : availableCredits l u < (amt : Int)) :
    reserve l u amt cid = Except.error ResearchError.insufficientCredits := by
  simp [reserve, h]

theorem terminal_noop (l : Ledger) (cid : Nat) (h : hasTerminal l cid = true) :
    commit l cid = l ∧ rollback l cid = l := by
  constructor <;> simp [commit, rollback, h]

theorem noop_or_terminal_commit (l : Ledger) (cid : Nat) :
    (commit l cid = l ∧ rollback l cid = l) ∨ hasTerminal (commit l cid) cid = true := by
  by_cases h : hasTerminal l cid = true
  · exact Or.inl (terminal_noop l cid h)
  · have h' : hasTerminal l cid = false := by simpa using h
    cases hr : findReservation l cid with
    | none => exact Or.inl ⟨by simp [commit, h', hr], by simp [rollback, h', hr]⟩
    | some r =>
      refine Or.inr ?_
      have hc : commit l cid = ⟨commitEntry l r cid :: l.entries⟩ := by
        simp [commit, h', hr]
      rw [hc]
      simp [hasTerminal, isTerminal, commitEntry]

theorem noop_or_terminal_rollback (l : Ledger) (cid : Nat) :
    (commit l cid = l ∧ rollback l cid = l) ∨ hasTerminal (rollback l cid) cid = true := by
  by_cases h : hasTerminal l cid = true
  · exact Or.inl (terminal_noop l cid h)
  · have h' : hasTerminal l cid = false := by simpa using h
    cases hr : findReservation l cid with
    | none => exact Or.inl ⟨by simp [commit, h', hr], by simp [rollback, h', hr]⟩
    | some r =>
      refine Or.inr ?_
      have hc : rollback l cid = ⟨rollbackEntry l r cid :: l.entries⟩ := by
        simp [rollback, h', hr]
      rw [hc]
      simp [hasTerminal, isTerminal, rollbackEntry]

/-- C3: calling commit or rollback a second time with the same
correlation_id is a no-op: the resulting ledger state is unchanged, so
the balance changes only on the first call and the second call appends
no additional terminal entry (no double charge, no double refund). -/
theorem terminal_ops_idempotent (l : Ledger) (cid : Nat) :
    commit (commit l cid) cid = commit l cid ∧
    rollback (rollback l cid) cid = rollback l cid ∧
    rollback (commit l cid) cid = commit l cid ∧
    commit (rollback l cid) cid = rollback l cid ∧
    (∀ u, availableCredits (commit (commit l cid) cid) u = availableCredits (commit l cid) u) ∧
    (∀ u, availableCredits (rollback (rollback l cid) cid) u = availableCredits (rollback l cid) u) ∧
    rollbackEntryCount (rollback (rollback l cid) cid) cid = rollbackEntryCount (rollback l cid) cid := by
  have hcc : commit (commit l cid) cid = commit l cid := by
    rcases noop_or_terminal_commit l cid with ⟨hc, _⟩ | ht
    · rw [hc]; exact hc
    · exact (terminal_noop _ _ ht).1
  have hrc : rollback (commit l cid) cid = commit l cid := by
    rcases noop_or_terminal_commit l cid with ⟨hc, hr⟩ | ht
    · rw [hc]; exact hr
    · exact (terminal_noop _ _ ht).2
  have hrr : rollback (rollback l cid) cid = rollback l cid := by
    rcases noop_or_terminal_rollback l cid with ⟨_, hr⟩ | ht
    · rw [hr]; exact hr
    · exact (terminal_noop _ _ ht).2
  have hcr : commit (rollback l cid) cid = rollback l cid := by
    rcases noop_or_terminal_rollback l cid with ⟨hc, hr⟩ | ht
    · rw [hr]; exact hc
    · exact (terminal_noop _ _ ht).1
  exact ⟨hcc, hrr, hrc, hcr, fun u => by rw [hcc], fun u => by rw [hrr], by rw [hrr]⟩

/-- Modelled from the spec: the closed set of evidence source kinds
(§3, §9). -/
inductive SourceKind
  | document
  | live_feed
  | web
deriving DecidableEq, Repr

/-- Modelled from the spec: EvidenceItem of §3.  relevance_score is
modelled as an integer score and fetched_at as a numeric timestamp. -/
structure EvidenceItem where
  source_kind : SourceKind
  source_id : String
  title : String
  snippet : String
  url_or_location : String
  relevance_score : Int
  fetched_at : Nat
deriving DecidableEq, Repr

/-- Modelled from the spec: an adapter's search outcome (§4.2) — a
ranked sequence of items, or a SourceUnavailable transport failure. -/
inductive AdapterResult
  | ok (items : List EvidenceItem)
  | unavailable
deriving DecidableEq, Repr

/-- A failed or timed-out adapter contributes an empty set (§4.4, §5). -/
def contribution : AdapterResult → List EvidenceItem
  | AdapterResult.ok items => items
  | AdapterResult.unavailable => []

/-- Two items describing the same fact from near-identical snippet text
collapse to one (§4.4); modelled as snippet equality. -/
def similarItems (a b : EvidenceItem) : Bool :=
  a.snippet == b.snippet

/-- One step of deduplication: collapse the new item into an existing
similar one keeping the higher-scored, else keep it. -/
def collapseInto (acc : List EvidenceItem) (it : EvidenceItem) : List EvidenceItem :=
  if acc.any (fun j => similarItems j it) then
    acc.map (fun j => if similarItems j it && decide (j.relevance_score < it.relevance_score) then it else j)
  else acc ++ [it]

/-- Modelled from the spec: deduplicate by content similarity, keeping
the higher-scored of any two similar items (§4.4). -/
def dedupEvidence (items : List EvidenceItem) : List EvidenceItem :=
  items.foldl collapseInto []

/-- The EvidenceItem ordering key of §3: relevance_score descending,
tie-broken by fetched_at descending (freshest wins). -/
def rankedBefore (a b : EvidenceItem) : Bool :=
  decide (b.relevance_score < a.relevance_score) ||
    (a.relevance_score == b.relevance_score && decide (b.fetched_at ≤ a.fetched_at))

/-- Insertion into an already ranked list. -/
def insertRanked (it : EvidenceItem) : List EvidenceItem → List EvidenceItem
  | [] => [it]
  | j :: rest => if rankedBefore it j then it :: j :: rest else j :: insertRanked it rest

/-- Sort by the EvidenceItem ordering key (§3, §4.4). -/
def sortEvidence (items : List EvidenceItem) : List EvidenceItem :=
  items.foldr insertRanked []

/-- Modelled from the spec: the fixed maximum size of the final
evidence set (§4.4). -/
def maxEvidenceCount : Nat := 10

/-- Modelled from the spec: the Evidence Aggregator of §4.4 —
concatenate all adapter contributions, deduplicate, sort by the
ordering key, cap the final set; fail with NoUsableEvidence only when
zero adapters returned any usable evidence. -/
def aggregate (doc live web : AdapterResult) : Except ResearchError (List EvidenceItem) :=
  let merged := (sortEvidence (dedupEvidence
    (contribution doc ++ contribution live ++ contribution web))).take maxEvidenceCount
  if merged.isEmpty then Except.error ResearchError.noUsableEvidence
  else Except.ok merged

/-- Modelled from the spec: Citation of §3 (1-based index assigned in
final ranked order). -/
structure Citation where
  index : Nat
  title : String
  snippet : String
  source_label : String
  url_or_location : String
deriving DecidableEq, Repr

/-- User-facing label of a source kind. -/
def sourceLabel : SourceKind → String
  | SourceKind.document => "document"
  | SourceKind.live_feed => "live_feed"
  | SourceKind.web => "web"

/-- Citation indices assigned in evidence order starting from i. -/
def assignIndices : Nat → List EvidenceItem → List Citation
  | _, [] => []
  | i, e :: rest =>
    { index := i, title := e.title, snippet := e.snippet,
      source_label := sourceLabel e.source_kind,
      url_or_location := e.url_or_location } :: assignIndices (i + 1) rest

/-- Modelled from the spec: the Citation Assembler of §4.5 — assigns
citation indices in the same order as the evidence sequence, starting
at 1. -/
def assembleCitations (ev : List EvidenceItem) : List Citation :=
  assignIndices 1 ev

/-- The set of source kinds contributing to the evidence set (§3
sources_used), in first-appearance order. -/
def sourcesUsed (items : List EvidenceItem) : List SourceKind :=
  items.foldl (fun acc it => if acc.contains it.source_kind then acc else acc ++ [it.source_kind]) []

/-- Modelled from the spec: ResearchReport of §3. -/
structure ResearchReport where
  report_id : Nat
  user_id : Nat
  question : String
  answer_text : String
  citations : List Citation
  sources_used : List SourceKind
  credit_cost : Nat
deriving DecidableEq, Repr

/-- Modelled from the spec: outcome of the external synthesis
capability (§4.6, §6) — narrative text or a failure/timeout. -/
inductive SynthResult
  | ok (text : String)
  | failure
deriving DecidableEq, Repr

/-- Modelled from the spec: the orchestrator's terminal and
intermediate states (§4.6). -/
inductive OrcState
  | received
  | reserved
  | evidenceGathered
  | synthesized
  | committed
  | failed (reason : ResearchError)
deriving DecidableEq, Repr

/-- The observable outcome of one research request: final state, the
ledger after the request, the persisted report if any, and how many
times the orchestrator invoked rollback. -/
structure RequestOutcome where
  finalState : OrcState
  ledger : Ledger
  report : Option ResearchReport
  rollbackCalls : Nat
deriving DecidableEq, Repr

/-- Modelled from the spec: the Research Orchestrator state machine of
§4.6 — reserve credits, aggregate evidence, synthesize, assemble
citations, then commit and persist, rolling back on any failure after
the reservation.  The adapter results and the synthesis outcome are
inputs standing for the external capabilities. -/
def submitResearchRequest (l : Ledger) (u cost cid : Nat) (question : String)
    (doc live web : AdapterResult) (synth : SynthResult) : RequestOutcome :=
  match reserve l u cost cid with
  | Except.error e => ⟨OrcState.failed e, l, none, 0⟩
  | Except.ok l1 =>
    match aggregate doc live web with
    | Except.error e => ⟨OrcState.failed e, rollback l1 cid, none, 1⟩
    | Except.ok ev =>
      match synth with
      | SynthResult.failure =>
        ⟨OrcState.failed ResearchError.synthesisFailure, rollback l1 cid, none, 1⟩
      | SynthResult.ok text =>
        let rep : ResearchReport :=
          { report_id := l.entries.length, user_id := u, question := question,
            answer_text := text, citations := assembleCitations ev,
            sources_used := sourcesUsed ev, credit_cost := cost }
        ⟨OrcState.committed, commit l1 cid, some rep, 0⟩

/-- A small ledger with one purchase of 5 credits for user 0, used to
instantiate theorems with hypotheses on concrete inputs. -/
def demoLedger : Ledger :=
  ⟨[{ user_id := 0, delta := 5, reason := Reason.purchase, balance_after := 5, correlation_id := 0 }]⟩

/-- C2: reserve fails with InsufficientCredits when available_credits <
amount — and then the whole request produces no report and appends no
ledger entry — and otherwise atomically decrements the available
balance by amount and appends a reservation entry. -/
theorem reserve_contract (l : Ledger) (u amt cid : Nat) :
    (availableCredits l u < (amt : Int) →
      reserve l u amt cid = Except.error ResearchError.insufficientCredits ∧
      ∀ q doc live web synth,
        submitResearchRequest l u amt cid q doc live web synth =
          ⟨OrcState.failed ResearchError.insufficientCredits, l, none, 0⟩) ∧
    ((amt : Int) ≤ availableCredits l u →
      reserve l u amt cid = Except.ok ⟨resEntry u amt cid (availableCredits l u) :: l.entries⟩ ∧
      (resEntry u amt cid (availableCredits l u)).reason = Reason.reservation ∧
      availableCredits ⟨resEntry u amt cid (availableCredits l u) :: l.entries⟩ u =
        availableCredits l u - amt) := by
  constructor
  · intro h
    refine ⟨reserve_fail l u amt cid h, fun q doc live web synth => ?_⟩
    simp [submitResearchRequest, reserve_fail l u amt cid h]
  · intro h
    refine ⟨reserve_ok l u amt cid h, rfl, ?_⟩
    simp [availableCredits, sumDeltas, resEntry]
    omega

/-- Instantiation of reserve_contract: a user with 0 credits cannot
reserve 5, and a user with 5 credits reserving 3 appends a reservation
entry and ends with balance 2. -/
theorem reserve_contract_witness :
    availableCredits (⟨[]⟩ : Ledger) 0 < (5 : Int) ∧
    reserve ⟨[]⟩ 0 5 1 = Except.error ResearchError.insufficientCredits ∧
    ((3 : Nat) : Int) ≤ availableCredits demoLedger 0 ∧
    reserve demoLedger 0 3 2 =
      Except.ok ⟨resEntry 0 3 2 (availableCredits demoLedger 0) :: demoLedger.entries⟩ ∧
    availableCredits ⟨resEntry 0 3 2 (availableCredits demoLedger 0) :: demoLedger.entries⟩ 0 =
      availableCredits demoLedger 0 - 3 :=
  ⟨by decide, ((reserve_contract ⟨[]⟩ 0 5 1).1 (by decide)).1, by decide,
    ((reserve_contract demoLedger 0 3 2).2 (by decide)).1,
    ((reserve_contract demoLedger 0 3 2).2 (by decide)).2.2⟩

theorem hasTerminal_after_reserve (l : Ledger) (u amt cid : Nat) (a : Int)
    (hfresh : ∀ e ∈ l.entries, e.correlation_id ≠ cid) :
    hasTerminal ⟨resEntry u amt cid a :: l.entries⟩ cid = false := by
  simp only [hasTerminal, List.any_cons, Bool.or_eq_false_iff]
  constructor
  · simp [resEntry, isTerminal]
  · rw [List.any_eq_false]
    intro e he
    simp only [Bool.and_eq_true, beq_iff_eq, not_and]
    intro hc
    exact absurd hc (hfresh e he)

theorem findReservation_after_reserve (l : Ledger) (u amt cid : Nat) (a : Int) :
    findReservation ⟨resEntry u amt cid a :: l.entries⟩ cid = some (resEntry u amt cid a) := by
  simp [findReservation, resEntry, List.find?_cons_of_pos]

theorem rollback_after_reserve (l : Ledger) (u amt cid : Nat) (a : Int)
    (hfresh : ∀ e ∈ l.entries, e.correlation_id ≠ cid) :
    rollback ⟨resEntry u amt cid a :: l.entries⟩ cid =
      ⟨rollbackEntry ⟨resEntry u amt cid a :: l.entries⟩ (resEntry u amt cid a) cid
        :: resEntry u amt cid a :: l.entries⟩ := by
  simp [rollback, hasTerminal_after_reserve l u amt cid a hfresh,
    findReservation_after_reserve l u amt cid a]

theorem rolled_back_props (l : Ledger) (u amt cid : Nat)
    (hfresh : ∀ e ∈ l.entries, e.correlation_id ≠ cid) :
    rollbackEntryCount (rollback ⟨resEntry u amt cid (availableCredits l u) :: l.entries⟩ cid) cid = 1 ∧
    availableCredits (rollback ⟨resEntry u amt cid (availableCredits l u) :: l.entries⟩ cid) u =
      availableCredits l u := by
  rw [rollback_after_reserve l u amt cid (availableCredits l u) hfresh]
  constructor
  · simp only [rollbackEntryCount, List.filter_cons]
    have h1 : ((rollbackEntry ⟨resEntry u amt cid (availableCredits l u) :: l.entries⟩
        (resEntry u amt cid (availableCredits l u)) cid).correlation_id == cid &&
        (rollbackEntry ⟨resEntry u amt cid (availableCredits l u) :: l.entries⟩
        (resEntry u amt cid (availableCredits l u)) cid).reason == Reason.rollback) = true := by
      simp [rollbackEntry, resEntry]
    have h2 : ((resEntry u amt cid (availableCredits l u)).correlation_id == cid &&
        (resEntry u amt cid (availableCredits l u)).reason == Reason.rollback) = false := by
      simp [resEntry]
    rw [h1, h2]
    have h3 : l.entries.filter
        (fun e => e.correlation_id == cid && e.reason == Reason.rollback) = [] := by
      rw [List.filter_eq_nil_iff]
      intro e he
      simp only [Bool.and_eq_true, beq_iff_eq, not_and]
      intro hc
      exact absurd hc (hfresh e he)
    simp [h3]
  · simp [availableCredits, sumDeltas, rollbackEntry, resEntry]

/-- C1: any request that fails after a successful reservation triggers
rollback exactly once before surfacing the error: exactly one rollback
entry exists for the request's correlation id and the user's balance
equals the balance before the request. -/
theorem failed_after_reserved_rolls_back_once (l : Ledger) (u cost cid : Nat) (q : String)
    (doc live web : AdapterResult) (synth : SynthResult)
    (hfresh : ∀ e ∈ l.entries, e.correlation_id ≠ cid)
    (hok : (cost : Int) ≤ availableCredits l u)
    (hfail : ∃ r, (submitResearchRequest l u cost cid q doc live web synth).finalState =
      OrcState.failed r) :
    (submitResearchRequest l u cost cid q doc live web synth).rollbackCalls = 1 ∧
    rollbackEntryCount (submitResearchRequest l u cost cid q doc live web synth).ledger cid = 1 ∧
    availableCredits (submitResearchRequest l u cost cid q doc live web synth).ledger u =
      availableCredits l u := by
  have hres := reserve_ok l u cost cid hok
  cases hagg : aggregate doc live web with
  | error e =>
    have hsub : submitResearchRequest l u cost cid q doc live web synth =
        ⟨OrcState.failed e,
          rollback ⟨resEntry u cost cid (availableCredits l u) :: l.entries⟩ cid, none, 1⟩ := by
      simp [submitResearchRequest, hres, hagg]
    rw [hsub]
    exact ⟨rfl, (rolled_back_props l u cost cid hfresh).1, (rolled_back_props l u cost cid hfresh).2⟩
  | ok ev =>
    cases synth with
    | failure =>
      have hsub : submitResearchRequest l u cost cid q doc live web SynthResult.failure =
          ⟨OrcState.failed ResearchError.synthesisFailure,
            rollback ⟨resEntry u cost cid (availableCredits l u) :: l.entries⟩ cid, none, 1⟩ := by
        simp [submitResearchRequest, hres, hagg]
      rw [hsub]
      exact ⟨rfl, (rolled_back_props l u cost cid hfresh).1, (rolled_back_props l u cost cid hfresh).2⟩
    | ok text =>
      exfalso
      have hsub : (submitResearchRequest l u cost cid q doc live web (SynthResult.ok text)).finalState =
          OrcState.committed := by
        simp [submitResearchRequest, hres, hagg]
      rcases hfail with ⟨r, hr⟩
      rw [hsub] at hr
      exact absurd hr (by simp)

/-- Instantiation of failed_after_reserved_rolls_back_once: all three
adapters unavailable for a user holding 5 credits — the request fails
with one rollback entry and an unchanged balance of 5. -/
theorem failed_after_reserved_witness :
    (submitResearchRequest demoLedger 0 1 7 "q" AdapterResult.unavailable
      AdapterResult.unavailable AdapterResult.unavailable (SynthResult.ok "a")).rollbackCalls = 1 ∧
    rollbackEntryCount (submitResearchRequest demoLedger 0 1 7 "q" AdapterResult.unavailable
      AdapterResult.unavailable AdapterResult.unavailable (SynthResult.ok "a")).ledger 7 = 1 ∧
    availableCredits (submitResearchRequest demoLedger 0 1 7 "q" AdapterResult.unavailable
      AdapterResult.unavailable AdapterResult.unavailable (SynthResult.ok "a")).ledger 0 =
      availableCredits demoLedger 0 :=
  failed_after_reserved_rolls_back_once demoLedger 0 1 7 "q" AdapterResult.unavailable
    AdapterResult.unavailable AdapterResult.unavailable (SynthResult.ok "a")
    (by decide) (by decide) ⟨ResearchError.noUsableEvidence, by decide⟩

/-- Modelled from the spec: the ledger's state transitions (§4.1) — a
client may reserve, commit, rollback or purchase in any order. -/
inductive LedgerOp
  | reserveOp (u amt cid : Nat)
  | commitOp (cid : Nat)
  | rollbackOp (cid : Nat)
  | purchaseOp (u amt : Nat)
deriving DecidableEq, Repr

/-- Apply one ledger operation; a failed reserve leaves the ledger
unchanged. -/
def applyOp (l : Ledger) : LedgerOp → Ledger
  | LedgerOp.reserveOp u amt cid =>
    match reserve l u amt cid with
    | Except.ok l2 => l2
    | Except.error _ => l
  | LedgerOp.commitOp cid => commit l cid
  | LedgerOp.rollbackOp cid => rollback l cid
  | LedgerOp.purchaseOp u amt => purchase l u amt

/-- Run a sequence of ledger operations from the empty ledger; the
reachable ledger states are exactly the values of this function. -/
def runOps (ops : List LedgerOp) : Ledger :=
  ops.foldl applyOp ⟨[]⟩

def isReserveOp : LedgerOp → Bool
  | LedgerOp.reserveOp _ _ _ => true
  | _ => false

def isRollbackOp : LedgerOp → Bool
  | LedgerOp.rollbackOp _ => true
  | _ => false

def isPurchaseOp : LedgerOp → Bool
  | LedgerOp.purchaseOp _ _ => true
  | _ => false

/-- Inductive invariant: every reservation entry carries a non-positive
delta, and every balance is non-negative. -/
def GoodLedger (l : Ledger) : Prop :=
  (∀ e ∈ l.entries, e.reason = Reason.reservation → e.delta ≤ 0) ∧
  (∀ u, 0 ≤ availableCredits l u)

theorem commit_avail (l : Ledger) (cid u : Nat) :
    availableCredits (commit l cid) u = availableCredits l u := by
  by_cases h : hasTerminal l cid = true
  · simp [commit, h]
  · have h' : hasTerminal l cid = false := by simpa using h
    cases hr : findReservation l cid with
    | none => simp [commit, h', hr]
    | some r => simp [commit, h', hr, availableCredits, sumDeltas, commitEntry]

theorem rollback_avail_ge (l : Ledger) (hl : GoodLedger l) (cid u : Nat) :
    availableCredits l u ≤ availableCredits (rollback l cid) u := by
  by_cases h : hasTerminal l cid = true
  · simp [rollback, h]
  · have h' : hasTerminal l cid = false := by simpa using h
    cases hr : findReservation l cid with
    | none => simp [rollback, h', hr]
    | some r =>
      have hmem : r ∈ l.entries := List.mem_of_find?_eq_some hr
      have hres : r.reason = Reason.reservation := by
        have hp := List.find?_some hr
        simp only [Bool.and_eq_true, beq_iff_eq] at hp
        exact hp.2
      have hdelta : r.delta ≤ 0 := hl.1 r hmem hres
      have heq : rollback l cid = ⟨rollbackEntry l r cid :: l.entries⟩ := by
        simp [rollback, h', hr]
      rw [heq, availableCredits_cons]
      simp only [rollbackEntry]
      by_cases hu : r.user_id = u
      · simp only [hu, if_pos rfl]
        have : availableCredits ⟨l.entries⟩ u = availableCredits l u := rfl
        omega
      · simp [hu]

theorem reserve_avail_le (l : Ledger) (u amt cid v : Nat) :
    availableCredits (applyOp l (LedgerOp.reserveOp u amt cid)) v ≤ availableCredits l v := by
  by_cases h : availableCredits l u < (amt : Int)
  · simp [applyOp, reserve_fail l u amt cid h]
  · have h2 : (amt : Int) ≤ availableCredits l u := not_lt.mp h
    simp only [applyOp, reserve_ok l u amt cid h2]
    rw [availableCredits_cons]
    simp only [resEntry]
    by_cases hu : u = v
    · simp only [hu, if_pos rfl]
      have : availableCredits ⟨l.entries⟩ v = availableCredits l v := rfl
      omega
    · simp [hu]

theorem purchase_avail_ge (l : Ledger) (u amt v : Nat) :
    availableCredits l v ≤ availableCredits (purchase l u amt) v := by
  unfold purchase
  rw [availableCredits_cons]
  by_cases hu : u = v
  · simp only [hu, if_pos rfl]
    have : availableCredits ⟨l.entries⟩ v = availableCredits l v := rfl
    omega
  · simp [hu]

theorem good_applyOp (l : Ledger) (hl : GoodLedger l) (op : LedgerOp) :
    GoodLedger (applyOp l op) := by
  cases op with
  | reserveOp u amt cid =>
    by_cases h : availableCredits l u < (amt : Int)
    · simpa [applyOp, reserve_fail l u amt cid h] using hl
    · have h2 : (amt : Int) ≤ availableCredits l u := not_lt.mp h
      simp only [applyOp, reserve_ok l u amt cid h2]
      constructor
      · intro e he _
        rcases List.mem_cons.mp he with rfl | hmem
        · simp [resEntry]
        · exact hl.1 e hmem (by assumption)
      · intro v
        rw [availableCredits_cons]
        simp only [resEntry]
        by_cases hu : u = v
        · simp only [hu, if_pos rfl]
          have hv : availableCredits ⟨l.entries⟩ v = availableCredits l v := rfl
          rw [hv]
          have := hl.2 v
          rw [hu] at h2
          omega
        · simpa [hu] using hl.2 v
  | commitOp cid =>
    constructor
    · by_cases h : hasTerminal l cid = true
      · simpa [applyOp, commit, h] using hl.1
      · have h' : hasTerminal l cid = false := by simpa using h
        cases hr : findReservation l cid with
        | none => simpa [applyOp, commit, h', hr] using hl.1
        | some r =>
          simp only [applyOp, commit, h', hr, Bool.false_eq_true, if_false]
          intro e he hres
          rcases List.mem_cons.mp he with rfl | hmem
          · simp [commitEntry] at hres
          · exact hl.1 e hmem hres
    · intro v
      have heq : applyOp l (LedgerOp.commitOp cid) = commit l cid := rfl
      rw [heq, commit_avail]
      exact hl.2 v
  | rollbackOp cid =>
    constructor
    · by_cases h : hasTerminal l cid = true
      · simpa [applyOp, rollback, h] using hl.1
      · have h' : hasTerminal l cid = false := by simpa using h
        cases hr : findReservation l cid with
        | none => simpa [applyOp, rollback, h', hr] using hl.1
        | some r =>
          simp only [applyOp, rollback, h', hr, Bool.false_eq_true, if_false]
          intro e he hres
          rcases List.mem_cons.mp he with rfl | hmem
          · simp [rollbackEntry] at hres
          · exact hl.1 e hmem hres
    · intro v
      exact le_trans (hl.2 v) (rollback_avail_ge l hl cid v)
  | purchaseOp u amt =>
    constructor
    · intro e he hres
      rcases List.mem_cons.mp he with rfl | hmem
      · simp [purchase] at hres
      · exact hl.1 e hmem hres
    · intro v
      exact le_trans (hl.2 v) (purchase_avail_ge l u amt v)

theorem good_foldl (ops : List LedgerOp) :
    ∀ l, GoodLedger l → GoodLedger (ops.foldl applyOp l) := by
  induction ops with
  | nil => intro l hl; exact hl
  | cons op rest ih => intro l hl; exact ih (applyOp l op) (good_applyOp l hl op)

theorem good_runOps (ops : List LedgerOp) : GoodLedger (runOps ops) := by
  apply good_foldl
  exact ⟨by simp, fun u => le_refl 0⟩

/-- C4: in every ledger state reachable by any operation sequence, every
user's available credits are non-negative; any operation that decreases
a balance is a reserve, and any operation that increases one is a
rollback or a purchase. -/
theorem ledger_monotonicity_invariant (ops : List LedgerOp) (u : Nat) :
    0 ≤ availableCredits (runOps ops) u ∧
    (∀ op, availableCredits (applyOp (runOps ops) op) u < availableCredits (runOps ops) u →
      isReserveOp op = true) ∧
    (∀ op, availableCredits (runOps ops) u < availableCredits (applyOp (runOps ops) op) u →
      isRollbackOp op = true ∨ isPurchaseOp op = true) := by
  have hg := good_runOps ops
  refine ⟨hg.2 u, ?_, ?_⟩
  · intro op hlt
    cases op with
    | reserveOp a b c => rfl
    | commitOp cid =>
      exfalso
      have heq : applyOp (runOps ops) (LedgerOp.commitOp cid) = commit (runOps ops) cid := rfl
      rw [heq, commit_avail] at hlt
      exact lt_irrefl _ hlt
    | rollbackOp cid =>
      exfalso
      have hge := rollback_avail_ge (runOps ops) hg cid u
      have heq : applyOp (runOps ops) (LedgerOp.rollbackOp cid) = rollback (runOps ops) cid := rfl
      rw [heq] at hlt
      omega
    | purchaseOp a b =>
      exfalso
      have hge := purchase_avail_ge (runOps ops) a b u
      have heq : applyOp (runOps ops) (LedgerOp.purchaseOp a b) = purchase (runOps ops) a b := rfl
      rw [heq] at hlt
      omega
  · intro op hgt
    cases op with
    | reserveOp a b c =>
      exfalso
      have hle := reserve_avail_le (runOps ops) a b c u
      omega
    | commitOp cid =>
      exfalso
      have heq : applyOp (runOps ops) (LedgerOp.commitOp cid) = commit (runOps ops) cid := rfl
      rw [heq, commit_avail] at hgt
      exact lt_irrefl _ hgt
    | rollbackOp cid => exact Or.inl rfl
    | purchaseOp a b => exact Or.inr rfl

/-- Instantiation of ledger_monotonicity_invariant: after a purchase of
5 credits the balance is non-negative, a reserve that lowers it is
classified as a reserve, and a purchase that raises it as a purchase. -/
theorem ledger_monotonicity_witness :
    0 ≤ availableCredits (runOps [LedgerOp.purchaseOp 0 5]) 0 ∧
    isReserveOp (LedgerOp.reserveOp 0 3 1) = true ∧
    (isRollbackOp (LedgerOp.purchaseOp 0 2) = true ∨ isPurchaseOp (LedgerOp.purchaseOp 0 2) = true) :=
  ⟨(ledger_monotonicity_invariant [LedgerOp.purchaseOp 0 5] 0).1,
    (ledger_monotonicity_invariant [LedgerOp.purchaseOp 0 5] 0).2.1
      (LedgerOp.reserveOp 0 3 1) (by decide),
    (ledger_monotonicity_invariant [LedgerOp.purchaseOp 0 5] 0).2.2
      (LedgerOp.purchaseOp 0 2) (by decide)⟩

theorem assignIndices_map_index (ev : List EvidenceItem) :
    ∀ i, (assignIndices i ev).map Citation.index = List.range' i ev.length := by
  induction ev with
  | nil => intro i; rfl
  | cons e rest ih =>
    intro i
    simp only [assignIndices, List.map_cons, List.length_cons, List.range'_succ]
    exact congrArg (i :: ·) (ih (i + 1))

/-- A sample evidence item used to instantiate theorems on concrete
inputs. -/
def demoItem : EvidenceItem :=
  { source_kind := SourceKind.live_feed, source_id := "feed:1", title := "t",
    snippet := "sn", url_or_location := "u", relevance_score := 5, fetched_at := 100 }

/-- A second sample evidence item with a distinct snippet. -/
def demoItem2 : EvidenceItem :=
  { source_kind := SourceKind.web, source_id := "web:1", title := "t2",
    snippet := "sn2", url_or_location := "u2", relevance_score := 3, fetched_at := 50 }

/-- C5: for a fixed ranked evidence sequence the assigned citation
indices are exactly 1, 2, 3, ... in input order (1-based, no gaps), and
assembly is a deterministic function of its input. -/
theorem citation_indices_deterministic (ev : List EvidenceItem) :
    (assembleCitations ev).map Citation.index = List.range' 1 ev.length ∧
    ∀ ev2, ev2 = ev → assembleCitations ev2 = assembleCitations ev :=
  ⟨assignIndices_map_index ev 1, fun _ h => by rw [h]⟩

/-- Instantiation of citation_indices_deterministic on a two-item
evidence sequence: the indices are [1, 2] and re-running assembly on the
identical sequence gives the identical citations. -/
theorem citation_indices_witness :
    (assembleCitations [demoItem, demoItem2]).map Citation.index = List.range' 1 2 ∧
    assembleCitations [demoItem, demoItem2] = assembleCitations [demoItem, demoItem2] :=
  ⟨(citation_indices_deterministic [demoItem, demoItem2]).1,
    (citation_indices_deterministic [demoItem, demoItem2]).2 [demoItem, demoItem2] rfl⟩

theorem collapseInto_ne_nil (acc : List EvidenceItem) (it : EvidenceItem) (h : acc ≠ []) :
    collapseInto acc it ≠ [] := by
  unfold collapseInto
  split
  · simpa using h
  · simp

theorem foldl_collapse_ne_nil (xs : List EvidenceItem) :
    ∀ acc, acc ≠ [] → xs.foldl collapseInto acc ≠ [] := by
  induction xs with
  | nil => intro acc h; simpa using h
  | cons a rest ih =>
    intro acc h
    exact ih (collapseInto acc a) (collapseInto_ne_nil acc a h)

theorem dedupEvidence_eq_nil_iff (xs : List EvidenceItem) :
    dedupEvidence xs = [] ↔ xs = [] := by
  constructor
  · intro h
    cases xs with
    | nil => rfl
    | cons a t =>
      exfalso
      have h0 : collapseInto [] a = [a] := by simp [collapseInto]
      have : dedupEvidence (a :: t) = t.foldl collapseInto [a] := by
        simp [dedupEvidence, h0]
      rw [this] at h
      exact foldl_collapse_ne_nil t [a] (by simp) h
  · intro h; rw [h]; rfl

theorem insertRanked_ne_nil (it : EvidenceItem) (l : List EvidenceItem) :
    insertRanked it l ≠ [] := by
  cases l with
  | nil => simp [insertRanked]
  | cons j rest =>
    simp only [insertRanked]
    split <;> simp

theorem sortEvidence_eq_nil_iff (xs : List EvidenceItem) :
    sortEvidence xs = [] ↔ xs = [] := by
  constructor
  · intro h
    cases xs with
    | nil => rfl
    | cons a t => exact absurd h (insertRanked_ne_nil a (t.foldr insertRanked []))
  · intro h; rw [h]; rfl

theorem take_maxCount_eq_nil_iff (l : List EvidenceItem) :
    l.take maxEvidenceCount = [] ↔ l = [] := by
  cases l with
  | nil => simp
  | cons a t => simp [maxEvidenceCount]

/-- C6: a single adapter's SourceUnavailable failure contributes an
empty set and aggregation proceeds with the items of the succeeding
adapters; the aggregator fails the request exactly when zero adapters
return any usable evidence. -/
theorem aggregate_degrades_gracefully (doc live web : AdapterResult) :
    (aggregate doc live web = Except.error ResearchError.noUsableEvidence ↔
      contribution doc = [] ∧ contribution live = [] ∧ contribution web = []) ∧
    contribution AdapterResult.unavailable = [] := by
  refine ⟨?_, rfl⟩
  constructor
  · intro h
    have hnil : contribution doc ++ contribution live ++ contribution web = [] := by
      by_contra hne
      have h1 : dedupEvidence (contribution doc ++ contribution live ++ contribution web) ≠ [] :=
        fun hc => hne ((dedupEvidence_eq_nil_iff _).mp hc)
      have h2 : sortEvidence (dedupEvidence
          (contribution doc ++ contribution live ++ contribution web)) ≠ [] :=
        fun hc => h1 ((sortEvidence_eq_nil_iff _).mp hc)
      have h3 : (sortEvidence (dedupEvidence
          (contribution doc ++ contribution live ++ contribution web))).take maxEvidenceCount ≠ [] :=
        fun hc => h2 ((take_maxCount_eq_nil_iff _).mp hc)
      have h4 : ((sortEvidence (dedupEvidence
          (contribution doc ++ contribution live ++ contribution web))).take
            maxEvidenceCount).isEmpty = false := by
        cases hc : (sortEvidence (dedupEvidence
            (contribution doc ++ contribution live ++ contribution web))).take maxEvidenceCount with
        | nil => exact absurd hc h3
        | cons x xs => simp [hc]  -- hmm placeholder
      simp only [aggregate, h4, Bool.false_eq_true, if_false] at h
      exact Except.noConfusion h
    rcases List.append_eq_nil.mp hnil with ⟨h12, h3⟩
    rcases List.append_eq_nil.mp h12 with ⟨h1, h2⟩
    exact ⟨h1, h2, h3⟩
  · intro hc
    rcases hc with ⟨h1, h2, h3⟩
    simp [aggregate, h1, h2, h3, dedupEvidence, sortEvidence, maxEvidenceCount]

/-- Modelled from the spec: a raw item fetched from a configured feed
during a refresh cycle (§4.3). -/
structure RawFeedItem where
  feed_name : String
  title : String
  summary : String
  url : String
  published_at : Nat
deriving DecidableEq, Repr

/-- Normalization applied to title and URL before hashing (§4.3). -/
def normalizeText (s : String) : String :=
  s.trim.toLower

/-- Modelled from the spec: the stable content hash of normalized
title+URL used as item_id (§4.3), a deterministic 32-bit polynomial
string hash. -/
def itemIdHash (title url : String) : Nat :=
  (normalizeText title ++ "|" ++ normalizeText url).toList.foldl
    (fun h c => (h * 31 + c.toNat) % 2 ^ 32) 7

/-- Modelled from the spec: LiveFeedItem of §3 — created by the
background refresh cycle, never mutated. -/
structure LiveFeedItem where
  item_id : Nat
  feed_name : String
  title : String
  summary : String
  url : String
  published_at : Nat
  ingested_at : Nat
deriving DecidableEq, Repr

/-- Build the cache item for a fetched raw item, computing item_id. -/
def mkLiveFeedItem (now : Nat) (r : RawFeedItem) : LiveFeedItem :=
  { item_id := itemIdHash r.title r.url, feed_name := r.feed_name, title := r.title,
    summary := r.summary, url := r.url, published_at := r.published_at, ingested_at := now }

/-- Whether an item with the given id is already present in the cache. -/
def cacheHasId (cache : List LiveFeedItem) (h : Nat) : Bool :=
  cache.any (fun c => c.item_id == h)

/-- Modelled from the spec: insert only if item_id not already present
(§4.3). -/
def insertItem (cache : List LiveFeedItem) (it : LiveFeedItem) : List LiveFeedItem :=
  if cacheHasId cache it.item_id then cache else cache ++ [it]

/-- Modelled from the spec: the insertion phase of one refresh cycle
for one feed snapshot (§4.3). -/
def ingestSnapshot (now : Nat) (cache : List LiveFeedItem) (snapshot : List RawFeedItem) :
    List LiveFeedItem :=
  (snapshot.map (mkLiveFeedItem now)).foldl insertItem cache

/-- The sequence of item ids held by the cache. -/
def cacheIds (cache : List LiveFeedItem) : List Nat :=
  cache.map LiveFeedItem.item_id

theorem cacheHasId_insert (cache : List LiveFeedItem) (it : LiveFeedItem) (h : Nat)
    (hh : cacheHasId cache h = true) : cacheHasId (insertItem cache it) h = true := by
  unfold insertItem
  split
  · exact hh
  · simp only [cacheHasId, List.any_append]
    simp only [cacheHasId] at hh
    rw [hh]
    rfl

theorem cacheHasId_insert_self (cache : List LiveFeedItem) (it : LiveFeedItem) :
    cacheHasId (insertItem cache it) it.item_id = true := by
  unfold insertItem
  split
  · assumption
  · simp [cacheHasId, List.any_append]

theorem cacheHasId_foldl (l : List LiveFeedItem) :
    ∀ cache h, cacheHasId cache h = true → cacheHasId (l.foldl insertItem cache) h = true := by
  induction l with
  | nil => intro cache h hh; exact hh
  | cons a rest ih =>
    intro cache h hh
    exact ih (insertItem cache a) h (cacheHasId_insert cache a h hh)

theorem cacheHasId_foldl_mem (l : List LiveFeedItem) :
    ∀ cache, ∀ it ∈ l, cacheHasId (l.foldl insertItem cache) it.item_id = true := by
  induction l with
  | nil => intro cache it hit; exact absurd hit (List.not_mem_nil it)
  | cons a rest ih =>
    intro cache it hit
    rcases List.mem_cons.mp hit with rfl | hm
    · exact cacheHasId_foldl rest (insertItem cache it) it.item_id
        (cacheHasId_insert_self cache it)
    · exact ih (insertItem cache a) it hm

theorem foldl_insert_noop (l : List LiveFeedItem) :
    ∀ cache, (∀ it ∈ l, cacheHasId cache it.item_id = true) → l.foldl insertItem cache = cache := by
  induction l with
  | nil => intro cache _; rfl
  | cons a rest ih =>
    intro cache hall
    have ha : insertItem cache a = cache := by
      simp [insertItem, hall a (List.mem_cons_self a rest)]
    rw [List.foldl_cons, ha]
    exact ih cache (fun it hit => hall it (List.mem_cons_of_mem a hit))

theorem insertItem_nodup (cache : List LiveFeedItem) (it : LiveFeedItem)
    (h : (cacheIds cache).Nodup) : (cacheIds (insertItem cache it)).Nodup := by
  unfold insertItem
  split
  · exact h
  · rename_i hc
    have hnotin : it.item_id ∉ cacheIds cache := by
      intro hmem
      rcases List.mem_map.mp hmem with ⟨c, hcm, hceq⟩
      have hhas : cacheHasId cache it.item_id = true := by
        simp only [cacheHasId, List.any_eq_true]
        exact ⟨c, hcm, by simp [hceq]⟩
      exact hc hhas
    simp only [cacheIds, List.map_append, List.map_cons, List.map_nil]
    exact List.Nodup.append h (List.nodup_singleton it.item_id)
      (List.disjoint_singleton.mpr hnotin)

theorem foldl_insert_nodup (l : List LiveFeedItem) :
    ∀ cache, (cacheIds cache).Nodup → (cacheIds (l.foldl insertItem cache)).Nodup := by
  induction l with
  | nil => intro cache h; exact h
  | cons a rest ih =>
    intro cache h
    exact ih (insertItem cache a) (insertItem_nodup cache a h)

/-- C7: ingesting the same feed snapshot into the cache twice yields
the same state as ingesting it once (an item is inserted only if its
item_id — the stable hash of normalized title+URL — is not already
present), and item_id uniqueness is preserved. -/
theorem cache_ingestion_idempotent (now now2 : Nat) (cache : List LiveFeedItem)
    (s : List RawFeedItem) :
    ingestSnapshot now2 (ingestSnapshot now cache s) s = ingestSnapshot now cache s ∧
    ((cacheIds cache).Nodup → (cacheIds (ingestSnapshot now cache s)).Nodup) := by
  constructor
  · unfold ingestSnapshot
    apply foldl_insert_noop
    intro it hit
    rcases List.mem_map.mp hit with ⟨r, hr, rfl⟩
    have hsame : (mkLiveFeedItem now2 r).item_id = (mkLiveFeedItem now r).item_id := rfl
    rw [hsame]
    exact cacheHasId_foldl_mem (s.map (mkLiveFeedItem now)) cache (mkLiveFeedItem now r)
      (List.mem_map_of_mem (mkLiveFeedItem now) hr)
  · intro h
    exact foldl_insert_nodup (s.map (mkLiveFeedItem now)) cache h

/-- A sample feed snapshot containing the same article twice. -/
def demoSnapshot : List RawFeedItem :=
  [{ feed_name := "f", title := "T", summary := "s", url := "U", published_at := 1 },
   { feed_name := "f", title := "T", summary := "s", url := "U", published_at := 1 }]

/-- Instantiation of cache_ingestion_idempotent: re-ingesting a
two-entry snapshot into an empty cache is a no-op and the resulting ids
are duplicate-free. -/
theorem cache_ingestion_witness :
    ingestSnapshot 9 (ingestSnapshot 5 [] demoSnapshot) demoSnapshot =
      ingestSnapshot 5 [] demoSnapshot ∧
    (cacheIds (ingestSnapshot 5 [] demoSnapshot)).Nodup :=
  ⟨(cache_ingestion_idempotent 5 9 [] demoSnapshot).1,
    (cache_ingestion_idempotent 5 9 [] demoSnapshot).2 (by simp [cacheIds])⟩

/-- The characters treated as whitespace by JavaScript's
String.prototype.trim (ECMAScript WhiteSpace and LineTerminator). -/
def jsWhitespaceChars : List Char :=
  ['\t', '\n', '\x0b', '\x0c', '\r', ' ', '\u00A0', '\u1680',
   '\u2000', '\u2001', '\u2002', '\u2003', '\u2004', '\u2005', '\u2006',
   '\u2007', '\u2008', '\u2009', '\u200A', '\u2028', '\u2029', '\u202F',
   '\u205F', '\u3000', '\uFEFF']

def isJsWhitespace (c : Char) : Bool :=
  jsWhitespaceChars.contains c

/-- JavaScript String.prototype.trim: strip leading and trailing
whitespace. -/
def jsTrim (s : String) : String :=
  ⟨((s.data.dropWhile isJsWhitespace).reverse.dropWhile isJsWhitespace).reverse⟩

/-- A citation object as rendered by ResearchInterface.jsx. -/
structure FrontCitation where
  id : Nat
  title : String
  snippet : String
  url : String
  source : String
deriving DecidableEq, Repr

/-- The report object held in ResearchInterface's state (the timestamp
field, wall-clock time, is omitted). -/
structure ReportData where
  id : String
  question : String
  answer : String
  citations : List FrontCitation
  sources : List String
deriving DecidableEq, Repr

/-- The ResearchInterface component state touched by handleSubmit:
the question text, the loading flag, and the displayed report. -/
structure ResearchUiState where
  question : String
  isLoading : Bool
  report : Option ReportData
deriving DecidableEq, Repr

/-- A request issued through ApiService. -/
inductive ApiCall
  | generateResearchReport (question : String)
deriving DecidableEq, Repr

/-- The fallback report built in handleSubmit's catch branch. -/
def errorReport (q msg : String) : ReportData :=
  { id := "error", question := q,
    answer := "Error generating report: " ++ msg ++ ". Please try again or check your connection.",
    citations := [], sources := [] }

/-- ResearchInterface.handleSubmit (src/unnamed/part_001 lines 23-50):
returns immediately when the trimmed question is falsy (empty);
otherwise sets the loading flag, issues the API call (whose outcome is
the apiResult input), stores the response or an error report, and
finally clears the loading flag.  The returned list records the API
calls issued. -/
def handleSubmit (st : ResearchUiState) (apiResult : Except String ReportData) :
    ResearchUiState × List ApiCall :=
  if jsTrim st.question = "" then (st, [])
  else
    match apiResult with
    | Except.ok rd =>
      ({ st with isLoading := false, report := some rd },
        [ApiCall.generateResearchReport st.question])
    | Except.error msg =>
      ({ st with isLoading := false, report := some (errorReport st.question msg) },
        [ApiCall.generateResearchReport st.question])

theorem dropWhile_nil_of_all {α : Type} (p : α → Bool) :
    ∀ l : List α, (∀ c ∈ l, p c = true) → l.dropWhile p = [] := by
  intro l
  induction l with
  | nil => intro _; rfl
  | cons a t ih =>
    intro h
    rw [List.dropWhile_cons, if_pos (h a (List.mem_cons_self a t))]
    exact ih (fun c hc => h c (List.mem_cons_of_mem a hc))

theorem jsTrim_of_all_whitespace (s : String) (h : ∀ c ∈ s.data, isJsWhitespace c = true) :
    jsTrim s = "" := by
  unfold jsTrim
  rw [dropWhile_nil_of_all isJsWhitespace s.data h]
  rfl

/-- C8: submitting a question that is only whitespace (including the
empty string) returns immediately from handleSubmit — no API call is
issued and neither the displayed report nor the loading state changes —
and an API call is attempted only when the trimmed question is
non-empty. -/
theorem handleSubmit_whitespace_guard (st : ResearchUiState) (api : Except String ReportData) :
    ((∀ c ∈ st.question.data, isJsWhitespace c = true) → handleSubmit st api = (st, [])) ∧
    ((handleSubmit st api).2 ≠ [] → jsTrim st.question ≠ "") := by
  constructor
  · intro h
    simp [handleSubmit, jsTrim_of_all_whitespace st.question h]
  · intro hne hempty
    apply hne
    simp [handleSubmit, hempty]

/-- Instantiation of handleSubmit_whitespace_guard: a question of two
spaces and a tab is rejected without an API call even though the API
would error, and a non-blank question does lead to an attempt. -/
theorem handleSubmit_whitespace_witness :
    handleSubmit ⟨"  \t", false, none⟩ (Except.error "e") = (⟨"  \t", false, none⟩, []) ∧
    jsTrim (ResearchUiState.mk "hi" false none).question ≠ "" :=
  ⟨(handleSubmit_whitespace_guard ⟨"  \t", false, none⟩ (Except.error "e")).1 (by decide),
    (handleSubmit_whitespace_guard (ResearchUiState.mk "hi" false none)
      (Except.ok (errorReport "hi" "x"))).2 (by decide)⟩

end SmartResearch
